import Mathlib

/-!
Verification of the CDP treasury module (modules/cdp_treasury/src/lib.rs).

The module's storage (pools, per-asset collateral totals, auction-sizing
configuration, shutdown flag) is embedded as an explicit `State` record.
`Balance` is `u128`, embedded as `Nat` with an explicit bound `BMAX = 2^128 - 1`
in the checked/saturating operations.  Fallible external collaborators
(the multi-currency ledger and the DEX) are embedded as boolean success
oracles passed to each operation; the auction manager's read accessors are
an `AuctionCtx` record, and its auction-creation calls are recorded as an
emitted list of `AuctionRequest`s.  A Rust `.expect(...)` panic is embedded
as `Option.none`, so totality theorems (`= some _`) state exactly that the
panicking branches are unreachable.  The plain (unchecked) `u128`
additions in the scheduler's loop guards are embedded as wrapping
addition modulo `2^128`, matching a standard release build.  The
unbounded `while` loops are given explicit fuel; exhausting the fuel also
yields `none`, so the same totality theorems show the fuel is sufficient.
-/

/-- Largest representable `Balance` (`u128::MAX`). -/
def BMAX : Nat := 2 ^ 128 - 1

/-- Embeds `u128::checked_add`: `none` on overflow past `BMAX`. -/
def checkedAdd (a b : Nat) : Option Nat :=
  if a + b ≤ BMAX then some (a + b) else none

/-- Embeds `u128::checked_sub`: `none` on underflow. -/
def checkedSub (a b : Nat) : Option Nat :=
  if b ≤ a then some (a - b) else none

/-- Embeds `u128::checked_div`: `none` on division by zero. -/
def checkedDiv (a b : Nat) : Option Nat :=
  if b = 0 then none else some (a / b)

/-- Embeds `u128::checked_rem`: `none` on division by zero. -/
def checkedRem (a b : Nat) : Option Nat :=
  if b = 0 then none else some (a % b)

/-- Embeds `u128::saturating_add`. -/
def saturatingAdd (a b : Nat) : Nat :=
  min (a + b) BMAX

/-- Embeds `u128::saturating_sub` (on `Nat` this is truncated subtraction). -/
def saturatingSub (a b : Nat) : Nat :=
  a - b

/-- Embeds plain `u128` addition `+` with the semantics of a standard
release build: on overflow the value wraps modulo `2^128`.  The source's
scheduler loop guards compute their thresholds with this unchecked `+`
(with overflow checks enabled the addition would abort instead; at every
input where the two semantics differ observably here, both abort). -/
def wrappingAdd (a b : Nat) : Nat :=
  (a + b) % 2 ^ 128

/-- Collateral currency identifiers (`CurrencyId`), abstracted to `Nat`. -/
abbrev CurrencyId := Nat

/-- Account identifiers, abstracted to `Nat`. -/
abbrev AccountId := Nat

/-- The errors declared by `decl_error!` for the module, plus one variant
standing for any error propagated from the underlying currency system
(`DispatchError` from `T::Currency` calls). -/
inductive Err where
  | CollateralNotEnough
  | CollateralOverflow
  | SurplusPoolOverflow
  | DebitPoolOverflow
  | CurrencyError
  deriving DecidableEq, Repr

/-- The module's `decl_storage!` items. -/
structure State where
  surplusAuctionFixedSize : Nat
  surplusBufferSize : Nat
  initialAmountPerDebitAuction : Nat
  debitAuctionFixedSize : Nat
  collateralAuctionMaximumSize : CurrencyId → Nat
  debitPool : Nat
  surplusPool : Nat
  totalCollaterals : CurrencyId → Nat
  isShutdown : Bool

/-- Read accessors of the `AuctionManager` collaborator, held constant
through one call (the source reads each of them once). -/
structure AuctionCtx where
  totalSurplusInAuction : Nat
  totalDebitInAuction : Nat
  totalTargetInAuction : Nat
  totalCollateralInAuction : CurrencyId → Nat

/-- An auction-creation request sent to the `AuctionManager` collaborator. -/
inductive AuctionRequest where
  | surplus (amount : Nat)
  | debit (initialAmount fixedSize : Nat)
  | collateral (refundReceiver : AccountId) (currencyId : CurrencyId)
      (amount target : Nat)
  deriving DecidableEq, Repr

/-- Embedding of `offset_surplus_and_debit`.  `burnOk` is the success oracle for the
`T::Currency::withdraw` burn of the offset amount from the treasury account
(only consulted when the offset amount is nonzero, matching the
short-circuit `&&`).  `none` embeds the `expect` panics on the two
`checked_sub` mutations. -/
def offset_surplus_and_debit (burnOk : Bool) (st : State) : Option State :=
  let offset_amount := min st.debitPool st.surplusPool
  if offset_amount ≠ 0 ∧ burnOk then
    match checkedSub st.debitPool offset_amount,
          checkedSub st.surplusPool offset_amount with
    | some d, some s => some { st with debitPool := d, surplusPool := s }
    | _, _ => none
  else
    some st

/-- Embedding of `on_system_debit`. -/
def on_system_debit (amount : Nat) (st : State) : Except Err State :=
  match checkedAdd st.debitPool amount with
  | none => .error .DebitPoolOverflow
  | some newDebitPool => .ok { st with debitPool := newDebitPool }

/-- Embedding of `on_system_surplus`.  `depositOk` is the success oracle for the
`T::Currency::deposit` into the treasury account. -/
def on_system_surplus (depositOk : Bool) (amount : Nat) (st : State) :
    Except Err State :=
  match checkedAdd st.surplusPool amount with
  | none => .error .SurplusPoolOverflow
  | some newSurplusPool =>
    if depositOk then .ok { st with surplusPool := newSurplusPool }
    else .error .CurrencyError

/-- Embedding of `issue_debit`.  `depositOk` is the success oracle for the
`T::Currency::deposit` to `who`. -/
def issue_debit (depositOk : Bool) (_who : AccountId) (debit : Nat)
    (backed : Bool) (st : State) : Except Err State :=
  if !backed then
    match checkedAdd st.debitPool debit with
    | none => .error .DebitPoolOverflow
    | some newDebitPool =>
      if depositOk then .ok { st with debitPool := newDebitPool }
      else .error .CurrencyError
  else
    if depositOk then .ok st else .error .CurrencyError

/-- Embedding of `burn_debit`.  `withdrawOk` is the success oracle for the
`T::Currency::withdraw` from `who`. -/
def burn_debit (withdrawOk : Bool) (_who : AccountId) (_debit : Nat)
    (st : State) : Except Err State :=
  if withdrawOk then .ok st else .error .CurrencyError

/-- Embedding of `deposit_surplus`.  `transferOk` is the success oracle for the
`T::Currency::transfer` from `from` to the treasury account. -/
def deposit_surplus (transferOk : Bool) (_from : AccountId) (surplus : Nat)
    (st : State) : Except Err State :=
  match checkedAdd st.surplusPool surplus with
  | none => .error .SurplusPoolOverflow
  | some newSurplusPool =>
    if transferOk then .ok { st with surplusPool := newSurplusPool }
    else .error .CurrencyError

/-- Embedding of `deposit_collateral`. -/
def deposit_collateral (transferOk : Bool) (_from : AccountId)
    (currency_id : CurrencyId) (amount : Nat) (st : State) :
    Except Err State :=
  match checkedAdd (st.totalCollaterals currency_id) amount with
  | none => .error .CollateralOverflow
  | some newTotal =>
    if transferOk then
      .ok { st with totalCollaterals :=
        fun c => if c = currency_id then newTotal else st.totalCollaterals c }
    else .error .CurrencyError

/-- Embedding of `withdraw_collateral`. -/
def withdraw_collateral (transferOk : Bool) (_to : AccountId)
    (currency_id : CurrencyId) (amount : Nat) (st : State) :
    Except Err State :=
  match checkedSub (st.totalCollaterals currency_id) amount with
  | none => .error .CollateralNotEnough
  | some newTotal =>
    if transferOk then
      .ok { st with totalCollaterals :=
        fun c => if c = currency_id then newTotal else st.totalCollaterals c }
    else .error .CurrencyError

/-- Embedding of `swap_collateral_to_stable`.  `ensureOk` is the oracle for
`ensure_can_withdraw`; `exchanged` is the result of the DEX collaborator's
`exchange_currency` (it already enforces the minimum target amount).  The
outer `Option` embeds the `expect` panic on the final collateral
`checked_sub`. -/
def swap_collateral_to_stable (ensureOk : Bool) (exchanged : Except Err Nat)
    (currency_id : CurrencyId) (supply_amount : Nat) (_target_amount : Nat)
    (st : State) : Option (Except Err (State × Nat)) :=
  if ¬ (supply_amount ≤ st.totalCollaterals currency_id) then
    some (.error .CollateralNotEnough)
  else if ¬ ensureOk then
    some (.error .CurrencyError)
  else
    match exchanged with
    | .error e => some (.error e)
    | .ok amount =>
      match checkedAdd st.surplusPool amount with
      | none => some (.error .SurplusPoolOverflow)
      | some newSurplusPool =>
        match checkedSub (st.totalCollaterals currency_id) supply_amount with
        | none => none
        | some newTotal =>
          some (.ok ({ st with
            surplusPool := newSurplusPool,
            totalCollaterals := fun c =>
              if c = currency_id then newTotal else st.totalCollaterals c },
            amount))

/-- Embedding of `on_emergency_shutdown`. -/
def on_emergency_shutdown (st : State) : State :=
  { st with isShutdown := true }

theorem offset_surplus_and_debit_total (burnOk : Bool) (st : State) :
    ∃ st', offset_surplus_and_debit burnOk st = some st' := by
  unfold offset_surplus_and_debit
  by_cases h : min st.debitPool st.surplusPool ≠ 0 ∧ burnOk = true
  · rw [if_pos h]
    rw [show checkedSub st.debitPool (min st.debitPool st.surplusPool)
          = some (st.debitPool - min st.debitPool st.surplusPool) from
        if_pos (min_le_left _ _),
      show checkedSub st.surplusPool (min st.debitPool st.surplusPool)
          = some (st.surplusPool - min st.debitPool st.surplusPool) from
        if_pos (min_le_right _ _)]
    exact ⟨_, rfl⟩
  · rw [if_neg h]
    exact ⟨st, rfl⟩

/-- One of the two `while` loops in `on_finalize`.  Both loops have the
shape: while `remain >= threshold + fixedSize`, the sums being the
source's plain wrapping `u128` `+` (for the surplus loop
`threshold = total_surplus_in_auction + surplus_buffer_size`, for the debit
loop `threshold = total_debit_in_auction + total_target_in_auction`, each
already wrapped by the caller), break
once the shared `created_lots` counter reaches a nonzero
`max_auctions_count`, otherwise request one auction `req`, increment the
counter and `checked_sub` `fixedSize` from `remain` (`.expect` panic
embedded as `none`).  `fuel` bounds the iteration count; running out is
also `none`.  Returns the final counter and the requests in order. -/
def auctionCreationLoop (threshold fixedSize : Nat) (req : AuctionRequest)
    (maxAuctionsCount : Nat) :
    Nat → Nat → Nat → Option (Nat × List AuctionRequest)
  | fuel, remain, created =>
    if wrappingAdd threshold fixedSize ≤ remain then
      if maxAuctionsCount ≠ 0 ∧ maxAuctionsCount ≤ created then
        some (created, [])
      else
        match fuel with
        | 0 => none
        | fuel' + 1 =>
          (checkedSub remain fixedSize).bind fun remain' =>
            (auctionCreationLoop threshold fixedSize req maxAuctionsCount
                fuel' remain' (created + 1)).map
              (fun r => (r.1, req :: r.2))
    else
      some (created, [])

/-- Embedding of `on_finalize`: run the offset engine, then (unless shut down) the
surplus-auction loop followed by the debit-auction loop, sharing one
`created_lots` counter capped by `maxAuctionsCount`.  Returns the final
state and the auction requests issued, or `none` if any embedded panic
(or loop fuel) is hit. -/
def on_finalize (maxAuctionsCount : Nat) (ctx : AuctionCtx) (burnOk : Bool)
    (st : State) : Option (State × List AuctionRequest) :=
  (offset_surplus_and_debit burnOk st).bind fun st1 =>
    if st1.isShutdown then
      some (st1, [])
    else
      (if st1.surplusAuctionFixedSize ≠ 0 then
        auctionCreationLoop
          (wrappingAdd ctx.totalSurplusInAuction st1.surplusBufferSize)
          st1.surplusAuctionFixedSize
          (.surplus st1.surplusAuctionFixedSize)
          maxAuctionsCount (st1.surplusPool + 1) st1.surplusPool 0
      else some (0, [])).bind fun r1 =>
      (if st1.debitAuctionFixedSize ≠ 0 ∧
          st1.initialAmountPerDebitAuction ≠ 0 then
        auctionCreationLoop
          (wrappingAdd ctx.totalDebitInAuction ctx.totalTargetInAuction)
          st1.debitAuctionFixedSize
          (.debit st1.initialAmountPerDebitAuction st1.debitAuctionFixedSize)
          maxAuctionsCount (st1.debitPool + 1) st1.debitPool r1.1
      else some (r1.1, [])).bind fun r2 =>
      some (st1, r1.2 ++ r2.2)

/-- The lot-creation `while` loop of `create_collateral_auctions`: while
`unhandledA ≠ 0`, increment `created`; the lot is `(unhandledA, unhandledT)`
when `created` equals `lotsCount` (the last lot absorbs the remainder) and
`(avgA, avgT)` otherwise; `saturating_sub` the lot from the unhandled
totals.  Returns the `(amount, target)` pairs requested, in order; `none`
on fuel exhaustion. -/
def collateralLotLoop (avgA avgT lotsCount : Nat) :
    Nat → Nat → Nat → Nat → Option (List (Nat × Nat))
  | fuel, unhandledA, unhandledT, created =>
    if unhandledA = 0 then
      some []
    else
      match fuel with
      | 0 => none
      | fuel' + 1 =>
        let created' := created + 1
        let lot : Nat × Nat :=
          if created' = lotsCount then (unhandledA, unhandledT)
          else (avgA, avgT)
        (collateralLotLoop avgA avgT lotsCount fuel'
            (saturatingSub unhandledA lot.1) (saturatingSub unhandledT lot.2)
            created').map (fun l => lot :: l)

/-- Embedding of `create_collateral_auctions`.  No-op unless
`amount ≠ 0` and the treasury's collateral covers `amount` plus what is
already in auction.  Determines `lots_count`, the per-lot averages (the
`checked_div`/`checked_rem` `.expect` panics embedded as `none`), then runs
the lot loop.  Each returned `(amount, target)` pair is passed to
`new_collateral_auction` together with the constant `refund_receiver` and
`currency_id`. -/
def create_collateral_auctions (maxAuctionsCount : Nat) (ctx : AuctionCtx)
    (currency_id : CurrencyId) (amount target : Nat)
    (_refund_receiver : AccountId) (st : State) :
    Option (List (Nat × Nat)) :=
  if amount ≠ 0 ∧
      saturatingAdd amount (ctx.totalCollateralInAuction currency_id)
        ≤ st.totalCollaterals currency_id then
    let maxSize := st.collateralAuctionMaximumSize currency_id
    (if maxAuctionsCount = 0 ∨ maxSize = 0 ∨ amount ≤ maxSize then
      some 1
    else
      (checkedDiv amount maxSize).bind fun count =>
      (checkedRem amount maxSize).map fun remainder =>
      min (if remainder ≠ 0 then saturatingAdd count 1 else count)
        maxAuctionsCount).bind fun lotsCount =>
    (checkedDiv amount lotsCount).bind fun avgA =>
    (checkedDiv target lotsCount).bind fun avgT =>
    collateralLotLoop avgA avgT lotsCount (amount + 1) amount target 0
  else
    some []

/-- Ceiling division `ceil(a / b)`, encoded as `(a + b - 1) / b`; meaningful
for `b > 0`. -/
def ceilDiv (a b : Nat) : Nat :=
  (a + b - 1) / b

/-- The `lots_count` value computed by `create_collateral_auctions` from the
global cap, the per-asset maximum lot size and the amount (pure
reformulation of the branch in the source; proved equal to the embedded
computation below). -/
def lotsCountModel (maxAuctionsCount maxSize amount : Nat) : Nat :=
  if maxAuctionsCount = 0 ∨ maxSize = 0 ∨ amount ≤ maxSize then 1
  else
    min (if amount % maxSize ≠ 0 then saturatingAdd (amount / maxSize) 1
      else amount / maxSize) maxAuctionsCount

/-- An auction-manager context with nothing in auction. -/
def zeroCtx : AuctionCtx :=
  { totalSurplusInAuction := 0, totalDebitInAuction := 0,
    totalTargetInAuction := 0, totalCollateralInAuction := fun _ => 0 }

/-- A state with empty pools, zero configuration and the shutdown flag
clear; concrete scenario states are record updates of it. -/
def baseState : State :=
  { surplusAuctionFixedSize := 0, surplusBufferSize := 0,
    initialAmountPerDebitAuction := 0, debitAuctionFixedSize := 0,
    collateralAuctionMaximumSize := fun _ => 0, debitPool := 0,
    surplusPool := 0, totalCollaterals := fun _ => 0, isShutdown := false }


theorem auctionCreationLoop_some (threshold fixedSize : Nat)
    (req : AuctionRequest) (mc : Nat) (hf : 0 < fixedSize)
    (hn : threshold + fixedSize ≤ BMAX) :
    ∀ fuel remain created, remain < fuel →
      ∃ out, auctionCreationLoop threshold fixedSize req mc
        fuel remain created = some out := by
  have hw : wrappingAdd threshold fixedSize = threshold + fixedSize := by
    unfold wrappingAdd
    exact Nat.mod_eq_of_lt (by unfold BMAX at hn; omega)
  intro fuel
  induction fuel with
  | zero => intro remain created h; exact absurd h (Nat.not_lt_zero _)
  | succ f ih =>
    intro remain created h
    rw [auctionCreationLoop]
    by_cases hc : wrappingAdd threshold fixedSize ≤ remain
    · rw [if_pos hc]
      rw [hw] at hc
      by_cases hcap : mc ≠ 0 ∧ mc ≤ created
      · rw [if_pos hcap]; exact ⟨_, rfl⟩
      · rw [if_neg hcap]
        have hsub : checkedSub remain fixedSize
            = some (remain - fixedSize) := if_pos (by omega)
        rw [hsub, Option.some_bind]
        obtain ⟨out, hout⟩ := ih (remain - fixedSize) (created + 1) (by omega)
        rw [hout]
        exact ⟨_, rfl⟩
    · rw [if_neg hc]; exact ⟨_, rfl⟩

theorem auctionCreationLoop_spec (threshold fixedSize : Nat)
    (req : AuctionRequest) (mc : Nat) :
    ∀ fuel remain created c' l,
      auctionCreationLoop threshold fixedSize req mc
        fuel remain created = some (c', l) →
      created ≤ c' ∧ l.length = c' - created ∧
        (mc ≠ 0 → c' ≤ max created mc) := by
  intro fuel
  induction fuel with
  | zero =>
    intro remain created c' l h
    rw [auctionCreationLoop] at h
    by_cases hc : wrappingAdd threshold fixedSize ≤ remain
    · rw [if_pos hc] at h
      by_cases hcap : mc ≠ 0 ∧ mc ≤ created
      · rw [if_pos hcap] at h
        cases h
        exact ⟨le_refl _, by simp, fun _ => le_max_left _ _⟩
      · rw [if_neg hcap] at h
        exact absurd h (by simp)
    · rw [if_neg hc] at h
      cases h
      exact ⟨le_refl _, by simp, fun _ => le_max_left _ _⟩
  | succ f ih =>
    intro remain created c' l h
    rw [auctionCreationLoop] at h
    by_cases hc : wrappingAdd threshold fixedSize ≤ remain
    · rw [if_pos hc] at h
      by_cases hcap : mc ≠ 0 ∧ mc ≤ created
      · rw [if_pos hcap] at h
        cases h
        exact ⟨le_refl _, by simp, fun _ => le_max_left _ _⟩
      · rw [if_neg hcap] at h
        cases hs : checkedSub remain fixedSize with
        | none => rw [hs] at h; exact absurd h (by simp)
        | some r' =>
          rw [hs, Option.some_bind] at h
          cases hrec : auctionCreationLoop threshold fixedSize req mc
              f r' (created + 1) with
          | none => rw [hrec] at h; exact absurd h (by simp)
          | some out =>
            rw [hrec] at h
            obtain ⟨c'', l''⟩ := out
            obtain ⟨ih1, ih2, ih3⟩ := ih r' (created + 1) c'' l'' hrec
            simp only [Option.map_some'] at h
            cases h
            refine ⟨by omega, ?_, fun hmc => ?_⟩
            · simp only [List.length_cons, ih2]; omega
            · have h3 := ih3 hmc
              have hlt : created < mc := by
                rcases Nat.lt_or_ge created mc with h' | h'
                · exact h'
                · exact absurd ⟨hmc, h'⟩ hcap
              simp only [max_def] at h3 ⊢
              split at h3 <;> split <;> omega
    · rw [if_neg hc] at h
      cases h
      exact ⟨le_refl _, by simp, fun _ => le_max_left _ _⟩

theorem offset_burn_ok (st : State)
    (h : 0 < min st.debitPool st.surplusPool) :
    offset_surplus_and_debit true st =
      some { st with
        debitPool := st.debitPool - min st.debitPool st.surplusPool,
        surplusPool := st.surplusPool - min st.debitPool st.surplusPool } := by
  unfold offset_surplus_and_debit
  rw [if_pos ⟨by omega, rfl⟩,
    show checkedSub st.debitPool (min st.debitPool st.surplusPool)
        = some (st.debitPool - min st.debitPool st.surplusPool) from
      if_pos (min_le_left _ _),
    show checkedSub st.surplusPool (min st.debitPool st.surplusPool)
        = some (st.surplusPool - min st.debitPool st.surplusPool) from
      if_pos (min_le_right _ _)]

theorem offset_noop (burnOk : Bool) (st : State)
    (h : min st.debitPool st.surplusPool = 0 ∨ burnOk = false) :
    offset_surplus_and_debit burnOk st = some st := by
  unfold offset_surplus_and_debit
  rw [if_neg]
  rintro ⟨h1, h2⟩
  rcases h with h | h
  · exact h1 h
  · rw [h] at h2; cases h2

theorem offset_config (b : Bool) (st st' : State)
    (h : offset_surplus_and_debit b st = some st') :
    st'.surplusAuctionFixedSize = st.surplusAuctionFixedSize ∧
    st'.surplusBufferSize = st.surplusBufferSize ∧
    st'.debitAuctionFixedSize = st.debitAuctionFixedSize ∧
    st'.initialAmountPerDebitAuction = st.initialAmountPerDebitAuction := by
  unfold offset_surplus_and_debit at h
  by_cases hc : min st.debitPool st.surplusPool ≠ 0 ∧ b = true
  · rw [if_pos hc,
      show checkedSub st.debitPool (min st.debitPool st.surplusPool)
          = some (st.debitPool - min st.debitPool st.surplusPool) from
        if_pos (min_le_left _ _),
      show checkedSub st.surplusPool (min st.debitPool st.surplusPool)
          = some (st.surplusPool - min st.debitPool st.surplusPool) from
        if_pos (min_le_right _ _)] at h
    cases h
    exact ⟨rfl, rfl, rfl, rfl⟩
  · rw [if_neg hc] at h
    cases h
    exact ⟨rfl, rfl, rfl, rfl⟩

theorem on_finalize_total (mc : Nat) (ctx : AuctionCtx) (burnOk : Bool)
    (st : State)
    (hsn : ctx.totalSurplusInAuction + st.surplusBufferSize
      + st.surplusAuctionFixedSize ≤ BMAX)
    (hdn : ctx.totalDebitInAuction + ctx.totalTargetInAuction
      + st.debitAuctionFixedSize ≤ BMAX) :
    ∃ out, on_finalize mc ctx burnOk st = some out := by
  obtain ⟨st1, h1⟩ := offset_surplus_and_debit_total burnOk st
  obtain ⟨hcf1, hcf2, hcf3, hcf4⟩ := offset_config burnOk st st1 h1
  unfold on_finalize
  rw [h1]
  simp only [Option.some_bind]
  by_cases hsd : st1.isShutdown
  · rw [if_pos hsd]; exact ⟨_, rfl⟩
  · rw [if_neg hsd]
    have hwS : wrappingAdd ctx.totalSurplusInAuction st1.surplusBufferSize
        = ctx.totalSurplusInAuction + st1.surplusBufferSize := by
      unfold wrappingAdd
      exact Nat.mod_eq_of_lt (by rw [hcf2]; unfold BMAX at hsn; omega)
    have hwD : wrappingAdd ctx.totalDebitInAuction ctx.totalTargetInAuction
        = ctx.totalDebitInAuction + ctx.totalTargetInAuction := by
      unfold wrappingAdd
      exact Nat.mod_eq_of_lt (by unfold BMAX at hdn; omega)
    have hnS : wrappingAdd ctx.totalSurplusInAuction st1.surplusBufferSize
        + st1.surplusAuctionFixedSize ≤ BMAX := by
      rw [hwS, hcf2, hcf1]
      exact hsn
    have hnD : wrappingAdd ctx.totalDebitInAuction ctx.totalTargetInAuction
        + st1.debitAuctionFixedSize ≤ BMAX := by
      rw [hwD, hcf3]
      exact hdn
    have hsurp : ∃ r1, (if st1.surplusAuctionFixedSize ≠ 0 then
        auctionCreationLoop
          (wrappingAdd ctx.totalSurplusInAuction st1.surplusBufferSize)
          st1.surplusAuctionFixedSize
          (.surplus st1.surplusAuctionFixedSize)
          mc (st1.surplusPool + 1) st1.surplusPool 0
      else some (0, [])) = some r1 := by
      by_cases hs : st1.surplusAuctionFixedSize ≠ 0
      · rw [if_pos hs]
        exact auctionCreationLoop_some _ _ _ mc (Nat.pos_of_ne_zero hs)
          hnS _ _ 0 (Nat.lt_succ_self _)
      · rw [if_neg hs]; exact ⟨_, rfl⟩
    obtain ⟨r1, hr1⟩ := hsurp
    rw [hr1, Option.some_bind]
    have hdeb : ∃ r2, (if st1.debitAuctionFixedSize ≠ 0 ∧
        st1.initialAmountPerDebitAuction ≠ 0 then
        auctionCreationLoop
          (wrappingAdd ctx.totalDebitInAuction ctx.totalTargetInAuction)
          st1.debitAuctionFixedSize
          (.debit st1.initialAmountPerDebitAuction st1.debitAuctionFixedSize)
          mc (st1.debitPool + 1) st1.debitPool r1.1
      else some (r1.1, [])) = some r2 := by
      by_cases hd : st1.debitAuctionFixedSize ≠ 0 ∧
          st1.initialAmountPerDebitAuction ≠ 0
      · rw [if_pos hd]
        exact auctionCreationLoop_some _ _ _ mc (Nat.pos_of_ne_zero hd.1)
          hnD _ _ r1.1 (Nat.lt_succ_self _)
      · rw [if_neg hd]; exact ⟨_, rfl⟩
    obtain ⟨r2, hr2⟩ := hdeb
    rw [hr2, Option.some_bind]
    exact ⟨_, rfl⟩

theorem on_finalize_length_le (mc : Nat) (ctx : AuctionCtx) (burnOk : Bool)
    (st st' : State) (l : List AuctionRequest) (hmc : mc ≠ 0)
    (h : on_finalize mc ctx burnOk st = some (st', l)) : l.length ≤ mc := by
  unfold on_finalize at h
  cases ho : offset_surplus_and_debit burnOk st with
  | none => rw [ho] at h; exact absurd h (by simp)
  | some st1 =>
    rw [ho] at h
    simp only [Option.some_bind] at h
    by_cases hsd : st1.isShutdown
    · rw [if_pos hsd] at h
      cases h
      simp only [List.length_nil]
      omega
    · rw [if_neg hsd] at h
      cases hb1 : (if st1.surplusAuctionFixedSize ≠ 0 then
          auctionCreationLoop
            (wrappingAdd ctx.totalSurplusInAuction st1.surplusBufferSize)
            st1.surplusAuctionFixedSize
            (.surplus st1.surplusAuctionFixedSize)
            mc (st1.surplusPool + 1) st1.surplusPool 0
        else some (0, [])) with
      | none => rw [hb1] at h; exact absurd h (by simp)
      | some r1 =>
        rw [hb1, Option.some_bind] at h
        obtain ⟨c1, l1⟩ := r1
        have fact1 : l1.length = c1 ∧ c1 ≤ mc := by
          by_cases hs : st1.surplusAuctionFixedSize ≠ 0
          · rw [if_pos hs] at hb1
            obtain ⟨f1, f2, f3⟩ := auctionCreationLoop_spec _ _ _ mc
              _ _ _ _ _ hb1
            refine ⟨by omega, ?_⟩
            have := f3 hmc
            simpa using this
          · rw [if_neg hs] at hb1
            cases hb1
            exact ⟨rfl, Nat.zero_le _⟩
        cases hb2 : (if st1.debitAuctionFixedSize ≠ 0 ∧
            st1.initialAmountPerDebitAuction ≠ 0 then
            auctionCreationLoop
              (wrappingAdd ctx.totalDebitInAuction ctx.totalTargetInAuction)
              st1.debitAuctionFixedSize
              (.debit st1.initialAmountPerDebitAuction
                st1.debitAuctionFixedSize)
              mc (st1.debitPool + 1) st1.debitPool c1
          else some (c1, [])) with
        | none => rw [hb2] at h; exact absurd h (by simp)
        | some r2 =>
          rw [hb2, Option.some_bind] at h
          obtain ⟨c2, l2⟩ := r2
          have fact2 : l2.length = c2 - c1 ∧ c2 ≤ max c1 mc := by
            by_cases hd : st1.debitAuctionFixedSize ≠ 0 ∧
                st1.initialAmountPerDebitAuction ≠ 0
            · rw [if_pos hd] at hb2
              obtain ⟨f1, f2, f3⟩ := auctionCreationLoop_spec _ _ _ mc
                _ _ _ _ _ hb2
              exact ⟨f2, f3 hmc⟩
            · rw [if_neg hd] at hb2
              cases hb2
              exact ⟨by simp [Nat.sub_self], le_max_left _ _⟩
          cases h
          have hmax : max c1 mc = mc := max_eq_right fact1.2
          simp only [List.length_append, fact1.1, fact2.1]
          omega

theorem collateralLotLoop_nil (avgA avgT lots fuel uT c : Nat) :
    collateralLotLoop avgA avgT lots fuel 0 uT c = some [] := by
  cases fuel <;> rfl

theorem collateralLotLoop_run (avgA avgT lots : Nat) :
    ∀ n, 0 < n → ∀ fuel u uT c, c + n = lots → (n - 1) * avgA < u →
      n ≤ fuel →
      collateralLotLoop avgA avgT lots fuel u uT c =
        some (List.replicate (n - 1) (avgA, avgT) ++
          [(u - (n - 1) * avgA, uT - (n - 1) * avgT)]) := by
  intro n
  induction n with
  | zero => intro h; exact absurd h (lt_irrefl 0)
  | succ n ih =>
    intro _ fuel u uT c hc hlt hfuel
    have hu : ¬ (u = 0) := by omega
    cases fuel with
    | zero => omega
    | succ f =>
      rw [collateralLotLoop]
      rw [if_neg hu]
      by_cases hlast : c + 1 = lots
      · have hn0 : n = 0 := by omega
        subst hn0
        simp only [if_pos hlast, saturatingSub, Nat.sub_self,
          collateralLotLoop_nil, Option.map_some']
        simp
      · have hn : 0 < n := by omega
        simp only [if_neg hlast, saturatingSub]
        have hmul : n * avgA = (n - 1) * avgA + avgA := by
          cases n with
          | zero => exact absurd hn (lt_irrefl 0)
          | succ m => simp [Nat.succ_mul]
        have hlt' : (n - 1) * avgA < u - avgA := by
          simp only [Nat.succ_sub_one] at hlt
          omega
        rw [ih hn f (u - avgA) (uT - avgT) (c + 1) (by omega) hlt'
          (by omega)]
        have hmulT : n * avgT = (n - 1) * avgT + avgT := by
          cases n with
          | zero => exact absurd hn (lt_irrefl 0)
          | succ m => simp [Nat.succ_mul]
        have hrep : List.replicate n (avgA, avgT)
            = (avgA, avgT) :: List.replicate (n - 1) (avgA, avgT) := by
          cases n with
          | zero => exact absurd hn (lt_irrefl 0)
          | succ m => simp [List.replicate_succ]
        simp only [Option.map_some', Nat.succ_sub_one, hrep,
          List.cons_append]
        have hA : u - avgA - (n - 1) * avgA = u - n * avgA := by omega
        have hT : uT - avgT - (n - 1) * avgT = uT - n * avgT := by omega
        rw [hA, hT]

theorem lotsCountModel_pos (mc maxSize amount : Nat) :
    0 < lotsCountModel mc maxSize amount := by
  unfold lotsCountModel
  by_cases hbr : mc = 0 ∨ maxSize = 0 ∨ amount ≤ maxSize
  · rw [if_pos hbr]; omega
  · rw [if_neg hbr]
    push_neg at hbr
    obtain ⟨hmc, hms, hgt⟩ := hbr
    have hq : 1 ≤ amount / maxSize :=
      (Nat.one_le_div_iff (Nat.pos_of_ne_zero hms)).2 (le_of_lt hgt)
    have h1 : (1 : Nat) ≤ BMAX := by unfold BMAX; omega
    by_cases hrem : amount % maxSize ≠ 0
    · rw [if_pos hrem]
      unfold saturatingAdd
      omega
    · rw [if_neg hrem]
      omega

theorem lotsCountModel_le (mc maxSize amount : Nat) :
    lotsCountModel mc maxSize amount ≤ amount + 1 := by
  unfold lotsCountModel
  by_cases hbr : mc = 0 ∨ maxSize = 0 ∨ amount ≤ maxSize
  · rw [if_pos hbr]; omega
  · rw [if_neg hbr]
    have hq : amount / maxSize ≤ amount := Nat.div_le_self _ _
    by_cases hrem : amount % maxSize ≠ 0
    · rw [if_pos hrem]
      unfold saturatingAdd
      omega
    · rw [if_neg hrem]
      omega

theorem pred_mul_div_lt (amount L : Nat) (hamt : 0 < amount) (_hL : 0 < L) :
    (L - 1) * (amount / L) < amount := by
  have h1 : amount / L * L ≤ amount := Nat.div_mul_le_self _ _
  have h2 : (L - 1) * (amount / L) = L * (amount / L) - 1 * (amount / L) :=
    Nat.sub_mul L 1 (amount / L)
  by_cases hq : amount / L = 0
  · rw [hq]
    simpa using hamt
  · have h3 : L * (amount / L) = amount / L * L := Nat.mul_comm _ _
    omega

theorem create_collateral_auctions_eq (mc : Nat) (ctx : AuctionCtx)
    (cid : CurrencyId) (amount target : Nat) (rr : AccountId) (st : State)
    (hamt : amount ≠ 0)
    (hguard : saturatingAdd amount (ctx.totalCollateralInAuction cid)
      ≤ st.totalCollaterals cid) :
    create_collateral_auctions mc ctx cid amount target rr st =
      collateralLotLoop
        (amount / lotsCountModel mc (st.collateralAuctionMaximumSize cid)
          amount)
        (target / lotsCountModel mc (st.collateralAuctionMaximumSize cid)
          amount)
        (lotsCountModel mc (st.collateralAuctionMaximumSize cid) amount)
        (amount + 1) amount target 0 := by
  simp only [create_collateral_auctions]
  rw [if_pos ⟨hamt, hguard⟩]
  by_cases hbr : mc = 0 ∨ st.collateralAuctionMaximumSize cid = 0 ∨
      amount ≤ st.collateralAuctionMaximumSize cid
  · rw [if_pos hbr, Option.some_bind]
    have hL : lotsCountModel mc (st.collateralAuctionMaximumSize cid) amount
        = 1 := by
      unfold lotsCountModel
      rw [if_pos hbr]
    rw [hL,
      show checkedDiv amount 1 = some (amount / 1) from if_neg one_ne_zero,
      Option.some_bind,
      show checkedDiv target 1 = some (target / 1) from if_neg one_ne_zero,
      Option.some_bind]
  · rw [if_neg hbr]
    push_neg at hbr
    obtain ⟨hmc, hms, hgt⟩ := hbr
    rw [show checkedDiv amount (st.collateralAuctionMaximumSize cid)
        = some (amount / st.collateralAuctionMaximumSize cid) from
      if_neg hms, Option.some_bind,
      show checkedRem amount (st.collateralAuctionMaximumSize cid)
        = some (amount % st.collateralAuctionMaximumSize cid) from
      if_neg hms, Option.map_some', Option.some_bind]
    have hL : lotsCountModel mc (st.collateralAuctionMaximumSize cid) amount
        = min (if amount % st.collateralAuctionMaximumSize cid ≠ 0 then
            saturatingAdd (amount / st.collateralAuctionMaximumSize cid) 1
          else amount / st.collateralAuctionMaximumSize cid) mc := by
      unfold lotsCountModel
      rw [if_neg]
      push_neg
      exact ⟨hmc, hms, hgt⟩
    rw [← hL]
    have hLpos : 0 < lotsCountModel mc
        (st.collateralAuctionMaximumSize cid) amount :=
      lotsCountModel_pos _ _ _
    rw [show checkedDiv amount (lotsCountModel mc
          (st.collateralAuctionMaximumSize cid) amount)
        = some (amount / lotsCountModel mc
          (st.collateralAuctionMaximumSize cid) amount) from
      if_neg (by omega), Option.some_bind,
      show checkedDiv target (lotsCountModel mc
          (st.collateralAuctionMaximumSize cid) amount)
        = some (target / lotsCountModel mc
          (st.collateralAuctionMaximumSize cid) amount) from
      if_neg (by omega), Option.some_bind]

theorem ceilDiv_count_eq (amount maxSize : Nat) (hms : maxSize ≠ 0)
    (hbound : amount ≤ BMAX) :
    (if amount % maxSize ≠ 0 then saturatingAdd (amount / maxSize) 1
      else amount / maxSize) = ceilDiv amount maxSize := by
  have hdm : maxSize * (amount / maxSize) + amount % maxSize = amount :=
    Nat.div_add_mod amount maxSize
  have hpos : 0 < maxSize := Nat.pos_of_ne_zero hms
  by_cases hrem : amount % maxSize ≠ 0
  · rw [if_pos hrem]
    have hms2 : 2 ≤ maxSize := by
      by_contra hlt
      push_neg at hlt
      have h1 : maxSize = 1 := by omega
      rw [h1] at hrem
      exact hrem (Nat.mod_one amount)
    have hq2 : amount / maxSize ≤ amount / 2 :=
      Nat.div_le_div_left hms2 (by omega)
    have hh : amount / 2 ≤ BMAX / 2 := Nat.div_le_div_right hbound
    have hB2 : BMAX / 2 + 1 ≤ BMAX := by unfold BMAX; norm_num
    have hsat : saturatingAdd (amount / maxSize) 1
        = amount / maxSize + 1 := by
      unfold saturatingAdd
      omega
    rw [hsat]
    unfold ceilDiv
    have hsucc : maxSize * (amount / maxSize + 1)
        = maxSize * (amount / maxSize) + maxSize := Nat.mul_succ _ _
    have harr : amount + maxSize - 1
        = maxSize * (amount / maxSize + 1) + (amount % maxSize - 1) := by
      omega
    rw [harr, Nat.mul_add_div hpos]
    have hlt : (amount % maxSize - 1) / maxSize = 0 :=
      Nat.div_eq_of_lt (by
        have := Nat.mod_lt amount hpos
        omega)
    omega
  · rw [if_neg hrem]
    unfold ceilDiv
    have harr : amount + maxSize - 1
        = maxSize * (amount / maxSize) + (maxSize - 1) := by
      omega
    rw [harr, Nat.mul_add_div hpos]
    have hlt : (maxSize - 1) / maxSize = 0 := Nat.div_eq_of_lt (by omega)
    omega

theorem lotsCountModel_le_min (mc maxSize amount : Nat) (hmc : mc ≠ 0)
    (hms : maxSize ≠ 0) (hamt : amount ≠ 0) (hbound : amount ≤ BMAX) :
    lotsCountModel mc maxSize amount ≤ min (ceilDiv amount maxSize) mc := by
  unfold lotsCountModel
  by_cases hbr : mc = 0 ∨ maxSize = 0 ∨ amount ≤ maxSize
  · rw [if_pos hbr]
    have hle : amount ≤ maxSize := by tauto
    have hceil : 1 ≤ ceilDiv amount maxSize := by
      unfold ceilDiv
      rw [Nat.le_div_iff_mul_le (Nat.pos_of_ne_zero hms)]
      omega
    omega
  · rw [if_neg hbr]
    rw [ceilDiv_count_eq amount maxSize hms hbound]

theorem pred_mul_div_le (t L : Nat) : (L - 1) * (t / L) ≤ t :=
  calc (L - 1) * (t / L) ≤ L * (t / L) :=
        Nat.mul_le_mul_right _ (Nat.sub_le L 1)
    _ = t / L * L := Nat.mul_comm _ _
    _ ≤ t := Nat.div_mul_le_self _ _

theorem sum_replicate_nat (n x : Nat) :
    (List.replicate n x).sum = n * x := by
  induction n with
  | zero => simp
  | succ m ih =>
    simp [List.replicate_succ, ih, Nat.succ_mul]
    omega

theorem create_collateral_auctions_run (mc : Nat) (ctx : AuctionCtx)
    (cid : CurrencyId) (amount target : Nat) (rr : AccountId) (st : State)
    (hamt : amount ≠ 0)
    (hguard : saturatingAdd amount (ctx.totalCollateralInAuction cid)
      ≤ st.totalCollaterals cid) :
    create_collateral_auctions mc ctx cid amount target rr st =
      some (List.replicate
          (lotsCountModel mc (st.collateralAuctionMaximumSize cid) amount
            - 1)
          (amount / lotsCountModel mc
              (st.collateralAuctionMaximumSize cid) amount,
            target / lotsCountModel mc
              (st.collateralAuctionMaximumSize cid) amount) ++
        [(amount -
            (lotsCountModel mc (st.collateralAuctionMaximumSize cid) amount
              - 1) *
            (amount / lotsCountModel mc
              (st.collateralAuctionMaximumSize cid) amount),
          target -
            (lotsCountModel mc (st.collateralAuctionMaximumSize cid) amount
              - 1) *
            (target / lotsCountModel mc
              (st.collateralAuctionMaximumSize cid) amount))]) := by
  rw [create_collateral_auctions_eq mc ctx cid amount target rr st hamt
    hguard]
  exact collateralLotLoop_run _ _ _ _
    (lotsCountModel_pos _ _ _) (amount + 1) amount target 0
    (Nat.zero_add _)
    (pred_mul_div_lt amount _ (Nat.pos_of_ne_zero hamt)
      (lotsCountModel_pos _ _ _))
    (lotsCountModel_le _ _ _)

theorem offset_isShutdown (b : Bool) (st st' : State)
    (h : offset_surplus_and_debit b st = some st') :
    st'.isShutdown = st.isShutdown := by
  unfold offset_surplus_and_debit at h
  by_cases hc : min st.debitPool st.surplusPool ≠ 0 ∧ b = true
  · rw [if_pos hc,
      show checkedSub st.debitPool (min st.debitPool st.surplusPool)
          = some (st.debitPool - min st.debitPool st.surplusPool) from
        if_pos (min_le_left _ _),
      show checkedSub st.surplusPool (min st.debitPool st.surplusPool)
          = some (st.surplusPool - min st.debitPool st.surplusPool) from
        if_pos (min_le_right _ _)] at h
    cases h
    rfl
  · rw [if_neg hc] at h
    cases h
    rfl

theorem on_finalize_isShutdown (mc : Nat) (ctx : AuctionCtx) (b : Bool)
    (st st' : State) (l : List AuctionRequest)
    (h : on_finalize mc ctx b st = some (st', l)) :
    st'.isShutdown = st.isShutdown := by
  unfold on_finalize at h
  cases ho : offset_surplus_and_debit b st with
  | none => rw [ho] at h; exact absurd h (by simp)
  | some st1 =>
    rw [ho] at h
    simp only [Option.some_bind] at h
    have hst : st' = st1 := by
      by_cases hsd : st1.isShutdown
      · rw [if_pos hsd] at h; cases h; rfl
      · rw [if_neg hsd] at h
        rw [Option.bind_eq_some] at h
        obtain ⟨r1, _, h⟩ := h
        rw [Option.bind_eq_some] at h
        obtain ⟨r2, _, h⟩ := h
        cases h
        rfl
    rw [hst]
    exact offset_isShutdown b st st1 ho

theorem on_system_debit_isShutdown (amount : Nat) (st st' : State)
    (h : on_system_debit amount st = .ok st') :
    st'.isShutdown = st.isShutdown := by
  unfold on_system_debit at h
  cases hc : checkedAdd st.debitPool amount with
  | none => rw [hc] at h; exact Except.noConfusion h
  | some v => rw [hc] at h; cases h; rfl

theorem on_system_surplus_isShutdown (d : Bool) (amount : Nat)
    (st st' : State) (h : on_system_surplus d amount st = .ok st') :
    st'.isShutdown = st.isShutdown := by
  unfold on_system_surplus at h
  cases hc : checkedAdd st.surplusPool amount with
  | none => rw [hc] at h; exact Except.noConfusion h
  | some v =>
    rw [hc] at h
    cases d with
    | false => exact Except.noConfusion h
    | true => cases h; rfl

theorem issue_debit_isShutdown (d : Bool) (who : AccountId) (debit : Nat)
    (backed : Bool) (st st' : State)
    (h : issue_debit d who debit backed st = .ok st') :
    st'.isShutdown = st.isShutdown := by
  unfold issue_debit at h
  cases backed with
  | false =>
    simp only [Bool.not_false, if_true] at h
    cases hc : checkedAdd st.debitPool debit with
    | none => rw [hc] at h; exact Except.noConfusion h
    | some v =>
      rw [hc] at h
      cases d with
      | false => exact Except.noConfusion h
      | true => cases h; rfl
  | true =>
    simp only [Bool.not_true, if_false] at h
    cases d with
    | false => exact Except.noConfusion h
    | true => cases h; rfl

theorem burn_debit_isShutdown (w : Bool) (who : AccountId) (debit : Nat)
    (st st' : State) (h : burn_debit w who debit st = .ok st') :
    st'.isShutdown = st.isShutdown := by
  unfold burn_debit at h
  cases w with
  | false => exact Except.noConfusion h
  | true => cases h; rfl

theorem deposit_surplus_isShutdown (t : Bool) (who : AccountId)
    (surplus : Nat) (st st' : State)
    (h : deposit_surplus t who surplus st = .ok st') :
    st'.isShutdown = st.isShutdown := by
  unfold deposit_surplus at h
  cases hc : checkedAdd st.surplusPool surplus with
  | none => rw [hc] at h; exact Except.noConfusion h
  | some v =>
    rw [hc] at h
    cases t with
    | false => exact Except.noConfusion h
    | true => cases h; rfl

theorem deposit_collateral_isShutdown (t : Bool) (who : AccountId)
    (cid : CurrencyId) (amount : Nat) (st st' : State)
    (h : deposit_collateral t who cid amount st = .ok st') :
    st'.isShutdown = st.isShutdown := by
  unfold deposit_collateral at h
  cases hc : checkedAdd (st.totalCollaterals cid) amount with
  | none => rw [hc] at h; exact Except.noConfusion h
  | some v =>
    rw [hc] at h
    cases t with
    | false => exact Except.noConfusion h
    | true => cases h; rfl

theorem withdraw_collateral_isShutdown (t : Bool) (who : AccountId)
    (cid : CurrencyId) (amount : Nat) (st st' : State)
    (h : withdraw_collateral t who cid amount st = .ok st') :
    st'.isShutdown = st.isShutdown := by
  unfold withdraw_collateral at h
  cases hc : checkedSub (st.totalCollaterals cid) amount with
  | none => rw [hc] at h; exact Except.noConfusion h
  | some v =>
    rw [hc] at h
    cases t with
    | false => exact Except.noConfusion h
    | true => cases h; rfl

theorem swap_isShutdown (eo : Bool) (ex : Except Err Nat)
    (cid : CurrencyId) (sa ta : Nat) (st st' : State) (amt : Nat)
    (h : swap_collateral_to_stable eo ex cid sa ta st
      = some (.ok (st', amt))) :
    st'.isShutdown = st.isShutdown := by
  unfold swap_collateral_to_stable at h
  split at h
  · simp at h
  · split at h
    · simp at h
    · split at h
      · simp at h
      · split at h
        · simp at h
        · split at h
          · simp at h
          · simp only [Option.some.injEq, Except.ok.injEq,
              Prod.mk.injEq] at h
            obtain ⟨h1, _⟩ := h
            rw [← h1]

theorem on_system_debit_shutdown_comm (amount : Nat) (st : State) :
    on_system_debit amount (on_emergency_shutdown st)
      = (on_system_debit amount st).map on_emergency_shutdown := by
  unfold on_system_debit on_emergency_shutdown
  cases hc : checkedAdd st.debitPool amount <;> simp [hc, Except.map]

theorem on_system_surplus_shutdown_comm (d : Bool) (amount : Nat)
    (st : State) :
    on_system_surplus d amount (on_emergency_shutdown st)
      = (on_system_surplus d amount st).map on_emergency_shutdown := by
  unfold on_system_surplus on_emergency_shutdown
  cases hc : checkedAdd st.surplusPool amount <;>
    cases d <;> simp [hc, Except.map]

theorem issue_debit_shutdown_comm (d : Bool) (who : AccountId)
    (debit : Nat) (backed : Bool) (st : State) :
    issue_debit d who debit backed (on_emergency_shutdown st)
      = (issue_debit d who debit backed st).map on_emergency_shutdown := by
  unfold issue_debit on_emergency_shutdown
  cases backed <;> cases hc : checkedAdd st.debitPool debit <;>
    cases d <;> simp [hc, Except.map]

theorem burn_debit_shutdown_comm (w : Bool) (who : AccountId) (debit : Nat)
    (st : State) :
    burn_debit w who debit (on_emergency_shutdown st)
      = (burn_debit w who debit st).map on_emergency_shutdown := by
  unfold burn_debit on_emergency_shutdown
  cases w <;> simp [Except.map]

theorem deposit_surplus_shutdown_comm (t : Bool) (who : AccountId)
    (surplus : Nat) (st : State) :
    deposit_surplus t who surplus (on_emergency_shutdown st)
      = (deposit_surplus t who surplus st).map on_emergency_shutdown := by
  unfold deposit_surplus on_emergency_shutdown
  cases hc : checkedAdd st.surplusPool surplus <;>
    cases t <;> simp [hc, Except.map]

theorem deposit_collateral_shutdown_comm (t : Bool) (who : AccountId)
    (cid : CurrencyId) (amount : Nat) (st : State) :
    deposit_collateral t who cid amount (on_emergency_shutdown st)
      = (deposit_collateral t who cid amount st).map
          on_emergency_shutdown := by
  unfold deposit_collateral on_emergency_shutdown
  cases hc : checkedAdd (st.totalCollaterals cid) amount <;>
    cases t <;> simp [hc, Except.map]

theorem withdraw_collateral_shutdown_comm (t : Bool) (who : AccountId)
    (cid : CurrencyId) (amount : Nat) (st : State) :
    withdraw_collateral t who cid amount (on_emergency_shutdown st)
      = (withdraw_collateral t who cid amount st).map
          on_emergency_shutdown := by
  unfold withdraw_collateral on_emergency_shutdown
  cases hc : checkedSub (st.totalCollaterals cid) amount <;>
    cases t <;> simp [hc, Except.map]

/-- C1: running the offset engine with `offset = min(DebitPool,
SurplusPool)`: if `offset > 0` and the burn succeeds, both pools are
decreased by exactly `offset` and `min(DebitPool', SurplusPool') = 0`; if
the burn fails, both pools are left unchanged and no error reaches the
caller (the result is still `some`, the failure is swallowed). -/
theorem C1_offset_engine (b : Bool) (st : State) :
    (0 < min st.debitPool st.surplusPool → b = true →
      offset_surplus_and_debit b st =
        some { st with
          debitPool := st.debitPool - min st.debitPool st.surplusPool
          surplusPool := st.surplusPool - min st.debitPool st.surplusPool }
      ∧
      min (st.debitPool - min st.debitPool st.surplusPool)
        (st.surplusPool - min st.debitPool st.surplusPool) = 0) ∧
    (b = false → offset_surplus_and_debit b st = some st) := by
  constructor
  · intro hpos hb
    subst hb
    exact ⟨offset_burn_ok st hpos, by omega⟩
  · intro hb
    subst hb
    exact offset_noop false st (Or.inr rfl)

theorem C1_offset_engine_witness :
    offset_surplus_and_debit true
        { baseState with debitPool := 5, surplusPool := 3 }
      = some { baseState with debitPool := 2, surplusPool := 0 } ∧
    offset_surplus_and_debit false
        { baseState with debitPool := 5, surplusPool := 3 }
      = some { baseState with debitPool := 5, surplusPool := 3 } := by
  constructor
  · exact ((C1_offset_engine true
      { baseState with debitPool := 5, surplusPool := 3 }).1
      (by decide) rfl).1
  · exact (C1_offset_engine false
      { baseState with debitPool := 5, surplusPool := 3 }).2 rfl

/-- C8: `on_system_debit` fails with `DebitPoolOverflow` exactly when
`DebitPool + amount` overflows `u128`; on success `DebitPool` grows by
exactly `amount` (and nothing is written on failure — the embedding
returns no state on error); at `amount = BMAX` with a nonzero pool it
fails with `DebitPoolOverflow`. -/
theorem C8_on_system_debit_overflow (st : State) (amount : Nat) :
    (on_system_debit amount st = .error .DebitPoolOverflow ↔
      BMAX < st.debitPool + amount) ∧
    (st.debitPool + amount ≤ BMAX →
      on_system_debit amount st
        = .ok { st with debitPool := st.debitPool + amount }) ∧
    (st.debitPool ≠ 0 → amount = BMAX →
      on_system_debit amount st = .error .DebitPoolOverflow) := by
  unfold on_system_debit checkedAdd
  by_cases h : st.debitPool + amount ≤ BMAX
  · rw [if_pos h]
    exact ⟨⟨fun hx => absurd hx (by simp), fun hx => absurd h (by omega)⟩,
      fun _ => rfl, fun hd ha => absurd h (by omega)⟩
  · rw [if_neg h]
    exact ⟨⟨fun _ => by omega, fun _ => rfl⟩, fun hx => absurd hx h,
      fun _ _ => rfl⟩

theorem C8_on_system_debit_overflow_witness :
    on_system_debit BMAX { baseState with debitPool := 1 }
      = .error .DebitPoolOverflow :=
  (C8_on_system_debit_overflow { baseState with debitPool := 1 }
    BMAX).2.2 (by decide) rfl

/-- C9: depositing collateral and then withdrawing the same amount (with
the addition in range and the underlying transfers succeeding) restores
`TotalCollaterals[asset]` to its prior value. -/
theorem C9_collateral_roundtrip (acct : AccountId) (cid : CurrencyId)
    (x : Nat) (st : State)
    (h : st.totalCollaterals cid + x ≤ BMAX) :
    ∃ st1 st2, deposit_collateral true acct cid x st = .ok st1 ∧
      withdraw_collateral true acct cid x st1 = .ok st2 ∧
      st2.totalCollaterals cid = st.totalCollaterals cid := by
  have hdep : deposit_collateral true acct cid x st
      = .ok { st with totalCollaterals := fun c => if c = cid then st.totalCollaterals cid + x else st.totalCollaterals c } := by
    unfold deposit_collateral
    rw [show checkedAdd (st.totalCollaterals cid) x
        = some (st.totalCollaterals cid + x) from if_pos h]
    rfl
  have hread : (({ st with totalCollaterals := fun c => if c = cid then st.totalCollaterals cid + x else st.totalCollaterals c } : State)).totalCollaterals cid
      = st.totalCollaterals cid + x := by
    simp
  have hcs : checkedSub (({ st with totalCollaterals := fun c => if c = cid then st.totalCollaterals cid + x else st.totalCollaterals c } : State).totalCollaterals cid) x
      = some (st.totalCollaterals cid) := by
    rw [hread]
    unfold checkedSub
    rw [if_pos (Nat.le_add_left x _)]
    congr 1
    omega
  have hwd : withdraw_collateral true acct cid x
      { st with totalCollaterals := fun c => if c = cid then st.totalCollaterals cid + x else st.totalCollaterals c }
      = .ok { { st with totalCollaterals := fun c => if c = cid then st.totalCollaterals cid + x else st.totalCollaterals c } with totalCollaterals := fun c => if c = cid then st.totalCollaterals cid else ({ st with totalCollaterals := fun c => if c = cid then st.totalCollaterals cid + x else st.totalCollaterals c } : State).totalCollaterals c } := by
    unfold withdraw_collateral
    rw [hcs]
    rfl
  refine ⟨_, _, hdep, hwd, ?_⟩
  simp

theorem C9_collateral_roundtrip_witness :
    ∃ st1 st2, deposit_collateral true 3 0 7 baseState = .ok st1 ∧
      withdraw_collateral true 3 0 7 st1 = .ok st2 ∧
      st2.totalCollaterals 0 = baseState.totalCollaterals 0 :=
  C9_collateral_roundtrip 3 0 7 baseState (by decide)

/-- C3: with `SurplusPool = 1000`, `SurplusBufferSize = 100`,
`SurplusAuctionFixedSize = 200`, nothing in auction and a cap of 2, the
cycle-end scheduler creates exactly 2 surplus auctions (and nothing else,
although both loop conditions would still hold); in general, with a
nonzero cap the number of auctions created in one cycle never exceeds the
cap. -/
theorem C3_scheduler_cap (mc : Nat) (ctx : AuctionCtx) (b : Bool)
    (st st' : State) (l : List AuctionRequest) :
    ((on_finalize 2 zeroCtx false
      { baseState with
        surplusAuctionFixedSize := 200
        surplusBufferSize := 100
        initialAmountPerDebitAuction := 100
        debitAuctionFixedSize := 200
        debitPool := 1000
        surplusPool := 1000 }).map Prod.snd
      = some [.surplus 200, .surplus 200]) ∧
    (mc ≠ 0 → on_finalize mc ctx b st = some (st', l) → l.length ≤ mc) := by
  refine ⟨by decide, fun hmc h => on_finalize_length_le mc ctx b st st' l
    hmc h⟩

theorem C3_scheduler_cap_witness :
    [AuctionRequest.surplus 200, AuctionRequest.surplus 200].length ≤ 2 :=
  (C3_scheduler_cap 2 zeroCtx false
    { baseState with
      surplusAuctionFixedSize := 200
      surplusBufferSize := 100
      initialAmountPerDebitAuction := 100
      debitAuctionFixedSize := 200
      debitPool := 1000
      surplusPool := 1000 }
    { baseState with
      surplusAuctionFixedSize := 200
      surplusBufferSize := 100
      initialAmountPerDebitAuction := 100
      debitAuctionFixedSize := 200
      debitPool := 1000
      surplusPool := 1000 }
    [AuctionRequest.surplus 200, AuctionRequest.surplus 200]).2
    (by decide) rfl

/-- C6 counterexample: the scheduler's loop-guard sums are plain wrapping
`u128` additions, so the guard does not bound the `checked_sub`: with
`SurplusBufferSize = u128::MAX`, `SurplusAuctionFixedSize = 2`,
`SurplusPool = 1` and nothing in auction (all settable storage), the
guard sum wraps to 1, the loop is entered with `remain = 1 < 2`, and
`checked_sub(1, 2).expect(...)` aborts — the embedding hits `none`. -/
theorem C6_guard_overflow_counterexample :
    on_finalize 0 zeroCtx false
      { baseState with
        surplusAuctionFixedSize := 2
        surplusBufferSize := BMAX
        surplusPool := 1 } = none := rfl

/-- C6 (amended): the lot splitter's checked arithmetic
(`checked_div`/`checked_rem` by the non-zero maximum size and by
`lots_count ≥ 1`) never aborts, on any input; the scheduler loops'
`checked_sub` never aborts provided the loop-guard sums do not overflow
`u128` (`totalSurplusInAuction + SurplusBufferSize +
SurplusAuctionFixedSize ≤ u128::MAX` and `totalDebitInAuction +
totalTargetInAuction + DebitAuctionFixedSize ≤ u128::MAX`) — when a
guard sum overflows, the wrapped guard can admit `remain < fixedSize`
and the abort branch is reachable. -/
theorem C6_constructed_arithmetic_safe :
    (∀ (mc : Nat) (ctx : AuctionCtx) (b : Bool) (st : State),
      ctx.totalSurplusInAuction + st.surplusBufferSize
        + st.surplusAuctionFixedSize ≤ BMAX →
      ctx.totalDebitInAuction + ctx.totalTargetInAuction
        + st.debitAuctionFixedSize ≤ BMAX →
      ∃ out, on_finalize mc ctx b st = some out) ∧
    (∀ (mc : Nat) (ctx : AuctionCtx) (cid : CurrencyId)
      (amount target : Nat) (rr : AccountId) (st : State),
      ∃ out,
        create_collateral_auctions mc ctx cid amount target rr st
          = some out) := by
  refine ⟨fun mc ctx b st hsn hdn =>
    on_finalize_total mc ctx b st hsn hdn, ?_⟩
  intro mc ctx cid amount target rr st
  by_cases hpre : amount ≠ 0 ∧
      saturatingAdd amount (ctx.totalCollateralInAuction cid)
        ≤ st.totalCollaterals cid
  · exact ⟨_, create_collateral_auctions_run mc ctx cid amount target rr st
      hpre.1 hpre.2⟩
  · refine ⟨[], ?_⟩
    simp only [create_collateral_auctions]
    rw [if_neg hpre]

theorem C6_constructed_arithmetic_safe_witness :
    ∃ out, on_finalize 2 zeroCtx false
      { baseState with
        surplusAuctionFixedSize := 200
        surplusBufferSize := 100
        initialAmountPerDebitAuction := 100
        debitAuctionFixedSize := 200
        debitPool := 1000
        surplusPool := 1000 } = some out :=
  C6_constructed_arithmetic_safe.1 2 zeroCtx false
    { baseState with
      surplusAuctionFixedSize := 200
      surplusBufferSize := 100
      initialAmountPerDebitAuction := 100
      debitAuctionFixedSize := 200
      debitPool := 1000
      surplusPool := 1000 } (by decide) (by decide)

/-- C2: under the precondition (`amount > 0`, collateral coverage, values
in the `u128` range), the lot splitter requests lots whose amounts sum to
`amount` and whose targets sum to `target`, with at least one lot, and —
when the global cap is nonzero and the per-asset maximum lot size is
nonzero, so that `ceil(amount / maxLotSize)` is defined — at most
`min(ceil(amount / maxLotSize), maxAuctionsCount)` lots. -/
theorem C2_lot_splitter_postconditions (mc : Nat) (ctx : AuctionCtx)
    (cid : CurrencyId) (amount target : Nat) (rr : AccountId) (st : State)
    (hamt : 0 < amount)
    (hcoll : amount + ctx.totalCollateralInAuction cid
      ≤ st.totalCollaterals cid)
    (hWF : st.totalCollaterals cid ≤ BMAX) :
    ∃ lots,
      create_collateral_auctions mc ctx cid amount target rr st
        = some lots ∧
      (lots.map Prod.fst).sum = amount ∧
      (lots.map Prod.snd).sum = target ∧
      1 ≤ lots.length ∧
      (mc ≠ 0 → st.collateralAuctionMaximumSize cid ≠ 0 →
        lots.length
          ≤ min (ceilDiv amount (st.collateralAuctionMaximumSize cid))
              mc) := by
  have hguard : saturatingAdd amount (ctx.totalCollateralInAuction cid)
      ≤ st.totalCollaterals cid :=
    le_trans (min_le_left _ _) hcoll
  refine ⟨_, create_collateral_auctions_run mc ctx cid amount target rr st
    (by omega) hguard, ?_, ?_, ?_, ?_⟩
  all_goals
    simp only [List.map_append, List.map_replicate, List.map_cons,
      List.map_nil, List.sum_append, List.sum_cons, List.sum_nil,
      sum_replicate_nat, List.length_append, List.length_replicate,
      List.length_cons, List.length_nil]
  · have h1 := pred_mul_div_le amount
      (lotsCountModel mc (st.collateralAuctionMaximumSize cid) amount)
    omega
  · have h1 := pred_mul_div_le target
      (lotsCountModel mc (st.collateralAuctionMaximumSize cid) amount)
    omega
  · omega
  · intro hmc hms
    have h1 := lotsCountModel_le_min mc
      (st.collateralAuctionMaximumSize cid) amount hmc hms (by omega)
      (by omega)
    have h2 := lotsCountModel_pos mc
      (st.collateralAuctionMaximumSize cid) amount
    omega

theorem C2_lot_splitter_postconditions_witness :
    ∃ lots,
      create_collateral_auctions 10 zeroCtx 0 250 90 7
        { baseState with
          collateralAuctionMaximumSize := fun _ => 100
          totalCollaterals := fun _ => 1000 } = some lots ∧
      (lots.map Prod.fst).sum = 250 ∧
      (lots.map Prod.snd).sum = 90 ∧
      1 ≤ lots.length ∧
      (10 ≠ 0 →
        (({ baseState with
          collateralAuctionMaximumSize := fun _ => 100
          totalCollaterals := fun _ => 1000 } : State)).collateralAuctionMaximumSize 0 ≠ 0 →
        lots.length
          ≤ min (ceilDiv 250 ((({ baseState with
              collateralAuctionMaximumSize := fun _ => 100
              totalCollaterals := fun _ => 1000 } : State)).collateralAuctionMaximumSize 0))
              10) :=
  C2_lot_splitter_postconditions 10 zeroCtx 0 250 90 7
    { baseState with
      collateralAuctionMaximumSize := fun _ => 100
      totalCollaterals := fun _ => 1000 }
    (by decide) (by decide) (by decide)

/-- C4 counterexample: with `amount = 250`, per-asset maximum lot size
100 and global cap `maxAuctionsCount = 0` (precondition met), the code
creates a single lot `(250, target)` — not the 3 lots 83/83/84 the claim
states (when the cap is 0 the lot count is forced to 1). -/
theorem C4_counterexample_cap_zero :
    create_collateral_auctions 0 zeroCtx 0 250 90 7
      { baseState with
        collateralAuctionMaximumSize := fun _ => 100
        totalCollaterals := fun _ => 1000 } = some [(250, 90)] ∧
    (some [((250 : Nat), (90 : Nat))]
      ≠ some [((83 : Nat), (30 : Nat)), (83, 30), (84, 30)]) :=
  ⟨by decide, by decide⟩

/-- C4 amended: with `amount = 250`, maximum lot size 100 and
`maxAuctionsCount = 0` a single lot of the full amount `(250, target)` is
created; the split into lots = 3 with `avgAmount = 83` — lots
83, 83, 84 (the last lot absorbing the remainder), summing to 250 —
occurs when the cap is instead nonzero and at least 3 (here 10). -/
theorem C4_amended_lot_split :
    create_collateral_auctions 0 zeroCtx 0 250 90 7
      { baseState with
        collateralAuctionMaximumSize := fun _ => 100
        totalCollaterals := fun _ => 1000 } = some [(250, 90)] ∧
    create_collateral_auctions 10 zeroCtx 0 250 90 7
      { baseState with
        collateralAuctionMaximumSize := fun _ => 100
        totalCollaterals := fun _ => 1000 }
      = some [(83, 30), (83, 30), (84, 30)] ∧
    ((83 : Nat) + (83 + (84 + 0)) = 250) :=
  ⟨by decide, by decide, by decide⟩

/-- C5: once `IsShutdown` is true, the cycle-end routine creates zero
auctions (empty request list) regardless of pools and configuration,
while the offset engine still runs in that same cycle (the returned state
is exactly the offset engine's output); and every ledger operation
behaves on a shut-down state exactly as on the same state without the
flag (the operations never read `IsShutdown`). -/
theorem C5_shutdown_halts_scheduler_only :
    (∀ (mc : Nat) (ctx : AuctionCtx) (b : Bool) (st : State),
      st.isShutdown = true →
      ∃ st', offset_surplus_and_debit b st = some st' ∧
        on_finalize mc ctx b st = some (st', [])) ∧
    (∀ (amount : Nat) (st : State),
      on_system_debit amount (on_emergency_shutdown st)
        = (on_system_debit amount st).map on_emergency_shutdown) ∧
    (∀ (d : Bool) (amount : Nat) (st : State),
      on_system_surplus d amount (on_emergency_shutdown st)
        = (on_system_surplus d amount st).map on_emergency_shutdown) ∧
    (∀ (d : Bool) (who : AccountId) (debit : Nat) (backed : Bool)
      (st : State),
      issue_debit d who debit backed (on_emergency_shutdown st)
        = (issue_debit d who debit backed st).map on_emergency_shutdown) ∧
    (∀ (w : Bool) (who : AccountId) (debit : Nat) (st : State),
      burn_debit w who debit (on_emergency_shutdown st)
        = (burn_debit w who debit st).map on_emergency_shutdown) ∧
    (∀ (t : Bool) (who : AccountId) (surplus : Nat) (st : State),
      deposit_surplus t who surplus (on_emergency_shutdown st)
        = (deposit_surplus t who surplus st).map on_emergency_shutdown) ∧
    (∀ (t : Bool) (who : AccountId) (cid : CurrencyId) (amount : Nat)
      (st : State),
      deposit_collateral t who cid amount (on_emergency_shutdown st)
        = (deposit_collateral t who cid amount st).map
            on_emergency_shutdown) ∧
    (∀ (t : Bool) (who : AccountId) (cid : CurrencyId) (amount : Nat)
      (st : State),
      withdraw_collateral t who cid amount (on_emergency_shutdown st)
        = (withdraw_collateral t who cid amount st).map
            on_emergency_shutdown) := by
  refine ⟨?_, on_system_debit_shutdown_comm,
    on_system_surplus_shutdown_comm, issue_debit_shutdown_comm,
    burn_debit_shutdown_comm, deposit_surplus_shutdown_comm,
    deposit_collateral_shutdown_comm, withdraw_collateral_shutdown_comm⟩
  intro mc ctx b st hsd
  obtain ⟨st', h'⟩ := offset_surplus_and_debit_total b st
  refine ⟨st', h', ?_⟩
  unfold on_finalize
  rw [h']
  simp only [Option.some_bind]
  rw [if_pos (by rw [offset_isShutdown b st st' h']; exact hsd)]

theorem C5_shutdown_halts_scheduler_only_witness :
    ∃ st', offset_surplus_and_debit true
        { baseState with
          surplusAuctionFixedSize := 200
          debitAuctionFixedSize := 200
          initialAmountPerDebitAuction := 100
          debitPool := 1000
          surplusPool := 1000
          isShutdown := true } = some st' ∧
      on_finalize 0 zeroCtx true
        { baseState with
          surplusAuctionFixedSize := 200
          debitAuctionFixedSize := 200
          initialAmountPerDebitAuction := 100
          debitPool := 1000
          surplusPool := 1000
          isShutdown := true } = some (st', []) :=
  C5_shutdown_halts_scheduler_only.1 0 zeroCtx true
    { baseState with
      surplusAuctionFixedSize := 200
      debitAuctionFixedSize := 200
      initialAmountPerDebitAuction := 100
      debitPool := 1000
      surplusPool := 1000
      isShutdown := true } rfl

/-- C7: `on_emergency_shutdown` is idempotent (running it twice equals
running it once), sets `IsShutdown` and changes nothing else, and is
total (no error); and `IsShutdown`, once true, stays true across every
operation of the module (each operation preserves the flag). -/
theorem C7_shutdown_idempotent_monotone :
    (∀ st : State, on_emergency_shutdown (on_emergency_shutdown st)
      = on_emergency_shutdown st) ∧
    (∀ st : State, (on_emergency_shutdown st).isShutdown = true ∧
      (on_emergency_shutdown st).debitPool = st.debitPool ∧
      (on_emergency_shutdown st).surplusPool = st.surplusPool ∧
      (on_emergency_shutdown st).totalCollaterals = st.totalCollaterals ∧
      (on_emergency_shutdown st).surplusAuctionFixedSize
        = st.surplusAuctionFixedSize ∧
      (on_emergency_shutdown st).surplusBufferSize
        = st.surplusBufferSize ∧
      (on_emergency_shutdown st).initialAmountPerDebitAuction
        = st.initialAmountPerDebitAuction ∧
      (on_emergency_shutdown st).debitAuctionFixedSize
        = st.debitAuctionFixedSize ∧
      (on_emergency_shutdown st).collateralAuctionMaximumSize
        = st.collateralAuctionMaximumSize) ∧
    (∀ (b : Bool) (st st' : State),
      offset_surplus_and_debit b st = some st' →
      st.isShutdown = true → st'.isShutdown = true) ∧
    (∀ (mc : Nat) (ctx : AuctionCtx) (b : Bool) (st st' : State)
      (l : List AuctionRequest),
      on_finalize mc ctx b st = some (st', l) →
      st.isShutdown = true → st'.isShutdown = true) ∧
    (∀ (amount : Nat) (st st' : State),
      on_system_debit amount st = .ok st' →
      st.isShutdown = true → st'.isShutdown = true) ∧
    (∀ (d : Bool) (amount : Nat) (st st' : State),
      on_system_surplus d amount st = .ok st' →
      st.isShutdown = true → st'.isShutdown = true) ∧
    (∀ (d : Bool) (who : AccountId) (debit : Nat) (backed : Bool)
      (st st' : State),
      issue_debit d who debit backed st = .ok st' →
      st.isShutdown = true → st'.isShutdown = true) ∧
    (∀ (w : Bool) (who : AccountId) (debit : Nat) (st st' : State),
      burn_debit w who debit st = .ok st' →
      st.isShutdown = true → st'.isShutdown = true) ∧
    (∀ (t : Bool) (who : AccountId) (surplus : Nat) (st st' : State),
      deposit_surplus t who surplus st = .ok st' →
      st.isShutdown = true → st'.isShutdown = true) ∧
    (∀ (t : Bool) (who : AccountId) (cid : CurrencyId) (amount : Nat)
      (st st' : State),
      deposit_collateral t who cid amount st = .ok st' →
      st.isShutdown = true → st'.isShutdown = true) ∧
    (∀ (t : Bool) (who : AccountId) (cid : CurrencyId) (amount : Nat)
      (st st' : State),
      withdraw_collateral t who cid amount st = .ok st' →
      st.isShutdown = true → st'.isShutdown = true) ∧
    (∀ (eo : Bool) (ex : Except Err Nat) (cid : CurrencyId)
      (sa ta : Nat) (st st' : State) (amt : Nat),
      swap_collateral_to_stable eo ex cid sa ta st
        = some (.ok (st', amt)) →
      st.isShutdown = true → st'.isShutdown = true) := by
  refine ⟨fun st => rfl,
    fun st => ⟨rfl, rfl, rfl, rfl, rfl, rfl, rfl, rfl, rfl⟩,
    fun b st st' h ht => by rw [offset_isShutdown b st st' h]; exact ht,
    fun mc ctx b st st' l h ht => by
      rw [on_finalize_isShutdown mc ctx b st st' l h]; exact ht,
    fun amount st st' h ht => by
      rw [on_system_debit_isShutdown amount st st' h]; exact ht,
    fun d amount st st' h ht => by
      rw [on_system_surplus_isShutdown d amount st st' h]; exact ht,
    fun d who debit backed st st' h ht => by
      rw [issue_debit_isShutdown d who debit backed st st' h]; exact ht,
    fun w who debit st st' h ht => by
      rw [burn_debit_isShutdown w who debit st st' h]; exact ht,
    fun t who surplus st st' h ht => by
      rw [deposit_surplus_isShutdown t who surplus st st' h]; exact ht,
    fun t who cid amount st st' h ht => by
      rw [deposit_collateral_isShutdown t who cid amount st st' h];
        exact ht,
    fun t who cid amount st st' h ht => by
      rw [withdraw_collateral_isShutdown t who cid amount st st' h];
        exact ht,
    fun eo ex cid sa ta st st' amt h ht => by
      rw [swap_isShutdown eo ex cid sa ta st st' amt h]; exact ht⟩

theorem C7_shutdown_idempotent_monotone_witness :
    (on_emergency_shutdown baseState).isShutdown = true :=
  C7_shutdown_idempotent_monotone.2.2.2.2.1 0
    (on_emergency_shutdown baseState) (on_emergency_shutdown baseState)
    rfl rfl

/-- C10 (implicit): lots are not bounded by the per-asset maximum lot
size: when the global cap is 0 or the per-asset maximum is 0, a single
lot of the full amount is created (exceeding the maximum whenever
`amount > maxLotSize`); and when `ceil(amount / maxLotSize)` exceeds a
nonzero cap, the lot count is truncated to the cap and the lots exceed
the maximum — e.g. `amount = 250`, max 100, cap 2 gives two lots of 125,
each above 100. -/
theorem C10_lots_exceed_maximum_size :
    (∀ (mc : Nat) (ctx : AuctionCtx) (cid : CurrencyId)
      (amount target : Nat) (rr : AccountId) (st : State),
      (mc = 0 ∨ st.collateralAuctionMaximumSize cid = 0) → amount ≠ 0 →
      amount + ctx.totalCollateralInAuction cid
        ≤ st.totalCollaterals cid →
      create_collateral_auctions mc ctx cid amount target rr st
        = some [(amount, target)]) ∧
    (create_collateral_auctions 2 zeroCtx 0 250 60 7
        { baseState with
          collateralAuctionMaximumSize := fun _ => 100
          totalCollaterals := fun _ => 1000 }
      = some [(125, 30), (125, 30)] ∧ (100 : Nat) < 125) := by
  constructor
  · intro mc ctx cid amount target rr st hzero hamt hcoll
    have hguard : saturatingAdd amount (ctx.totalCollateralInAuction cid)
        ≤ st.totalCollaterals cid :=
      le_trans (min_le_left _ _) hcoll
    rw [create_collateral_auctions_run mc ctx cid amount target rr st
      hamt hguard]
    have hL : lotsCountModel mc (st.collateralAuctionMaximumSize cid)
        amount = 1 := by
      unfold lotsCountModel
      rw [if_pos (by tauto)]
    rw [hL]
    simp
  · exact ⟨by decide, by decide⟩

theorem C10_lots_exceed_maximum_size_witness :
    create_collateral_auctions 0 zeroCtx 0 250 90 7
      { baseState with
        collateralAuctionMaximumSize := fun _ => 100
        totalCollaterals := fun _ => 1000 } = some [(250, 90)] :=
  C10_lots_exceed_maximum_size.1 0 zeroCtx 0 250 90 7
    { baseState with
      collateralAuctionMaximumSize := fun _ => 100
      totalCollaterals := fun _ => 1000 }
    (Or.inl rfl) (by decide) (by decide)
